import Mathlib

set_option maxRecDepth 4000

/-!
Verification development for the resume-tailoring workflow engine
(`src/agents/agent.py`, `src/agents/models/states.py`,
`src/backend/services/tailoring_service.py`).

The Python program threads a single mutable `AgentState` record through a
fixed graph of steps (LangGraph `StateGraph`).  We shallowly embed:

* the data model of `states.py` and the `AgentState` record;
* every node function of `ResumeTailoringAgent` as a pure
  `AgentState -> AgentState` transformer, with all LLM ("oracle") calls
  abstracted into an explicit `Oracle` record of structured responses;
* the graph topology of `_build_workflow` and the executor semantics
  (run each node, halt on `waiting_for_human` or at the terminal node);
  the executor itself is LangGraph library code that is not part of the
  repository, so its walk/halt/resume behaviour is modelled from the
  spec (section 4.1);
* `ResumeTailoringAgent.run` and `TailoringService.provide_feedback`.

Conventions used throughout the embedding:

* Python `None` / empty-dict falsiness is modelled with `Option` (`none`
  stands for `None` and for the empty dict `{}`, both of which are falsy).
* `current_gap_index` is a Python `int` that is only ever set to `0` or
  incremented, so it is embedded as `Nat`.
* `ats_score` is a Python `float`; the program only compares it with the
  literal `80` and stores it, so it is embedded as `Rat` (exact); no claim
  depends on rounding behaviour.
* `model_dump()` produces a detached dict with exactly the fields of the
  pydantic model; we reuse the `TailoringSuggestion` structure for that
  dict.  What matters, and what the embedding preserves, is that
  `current_suggestion` is a separate value from the list entry in
  `tailoring_suggestions`, so writes to one do not affect the other.
-/

/-- RequestType from states.py. -/
inductive RequestType where
  | tailor_resume
  | direct_edit
deriving DecidableEq

/-- Requirement from states.py. -/
structure Requirement where
  skill : String
  importance : String
  experience_level : String
deriving DecidableEq

/-- MatchedSkill from states.py. -/
structure MatchedSkill where
  skill : String
  evidence : String
  «section» : String
  confidence : String
  relevance : String
deriving DecidableEq

/-- Gap from states.py. -/
structure Gap where
  skill : String
  required_level : String
  importance : String
  resume_evidence : String
  «section» : String
  impact : String
deriving DecidableEq

/-- PrioritizedImprovement from states.py. -/
structure PrioritizedImprovement where
  skill : String
  impact : String
  addressability : String
  priority : Int
  approach : String
  rationale : String
deriving DecidableEq

/-- TailoringSuggestion from states.py; `approved` has declared default `True`. -/
structure TailoringSuggestion where
  skill : String
  «section» : String
  original_text : String
  new_text : String
  explanation : String
  confidence : String
  approved : Bool := true
deriving DecidableEq

/-- CompanyContext from states.py. -/
structure CompanyContext where
  culture : String
  industry : String
  terminology : List String
  formality : String
  company_size : String
  tech_stack : List String
deriving DecidableEq

/-- ATSAnalysis from states.py (keyword_density dict embedded as an association list). -/
structure ATSAnalysis where
  score : Rat
  keyword_density : List (String × Rat)
  job_title_matches : List String
  format_issues : List String
  improvements : List String
deriving DecidableEq

/-- FinalReview from states.py. -/
structure FinalReview where
  adjustments : List String
  strengths : List String
  confidence : String
deriving DecidableEq

/-- EditDetails, the inner structured-output model of `detect_intent`. -/
structure EditDetails where
  «section» : String
  action : String
  content : String
deriving DecidableEq

/-- RequestAnalysis, the structured-output model of `detect_intent`.  In the
source `request_type` is a string that is immediately coerced through
`RequestType(...)`; we embed the already-coerced enum value (a string outside
the enum would raise and abort the run, which the spec classifies as fatal). -/
structure RequestAnalysis where
  request_type : RequestType
  edit_details : Option EditDetails
deriving DecidableEq

/-- Payload of `human_feedback["current_response"]`: a dict with an
`answer` key and an optional `modified_text` key (`response.get("modified_text", ...)`). -/
structure HumanResponse where
  answer : String
  modified_text : Option String := none
deriving DecidableEq

/-- Context sub-dict of the pending verification request built in
`request_human_verification`. -/
structure RequestContext where
  skill : String
  «section» : String
  confidence : String
deriving DecidableEq

/-- The `pending_request` dict built in `request_human_verification`. -/
structure PendingRequest where
  question : String
  options : List String
  context : RequestContext
deriving DecidableEq

/-- Contents of a non-empty `human_feedback` dict.  The field defaults model
missing keys; an absent key and a `None` value are both read back as falsy by
`dict.get`. -/
structure FeedbackDict where
  current_response : Option HumanResponse := none
  pending_request : Option PendingRequest := none
deriving DecidableEq

/-- Reading `human_feedback.get("current_response")`: the empty dict (`none`)
has no keys, otherwise return the stored optional response. -/
def currentResponse : Option FeedbackDict → Option HumanResponse
  | none => none
  | some f => f.current_response

/-- The six content fields the `generate_suggestion_for_gap` prompt asks the
oracle for (items 1-6 of the prompt).  The pydantic `TailoringSuggestion` is
then built from them with `approved` taking its declared default `True`. -/
structure SuggestionDraft where
  skill : String
  «section» : String
  original_text : String
  new_text : String
  explanation : String
  confidence : String
deriving DecidableEq

/-- Project entry read by `generate_report` (`project.get('name', 'Project')`,
`project.get('description', '')`). -/
structure ReportProject where
  name : Option String := none
  description : Option String := none
deriving DecidableEq

/-- Work-experience entry read by `generate_report`.  `title`, `company` and
`dates` are read with `job.get(...)`; we embed the present-key case, which is
the shape the prompt requests. -/
structure ReportJob where
  title : String
  company : String
  dates : String
  projects : Option (List ReportProject) := none
  accomplishments : Option (List String) := none
deriving DecidableEq

/-- Education entry read by `generate_report`. -/
structure ReportEdu where
  degree : String
  institution : String
  dates : String
deriving DecidableEq

/-- A component of the report dict that may be either a list or any other
value rendered as a string (`isinstance(x, list)` branches in `generate_report`). -/
inductive ListOr (α : Type) where
  | items : List α → ListOr α
  | text : String → ListOr α
deriving DecidableEq

/-- The dict of resume components the `generate_report` oracle call returns. -/
structure ReportComponents where
  name : String
  current_title : String
  professional_summary : String
  skills : ListOr String
  work_experience : ListOr ReportJob
  education : ListOr ReportEdu
deriving DecidableEq

/-- AgentState from agent.py, field for field, with the same defaults.
`company_context: CompanyContext = None` becomes an `Option` with default
`none`; `human_feedback: Dict = {}` likewise (empty dict is falsy);
`current_suggestion: Optional[Dict]` holds the `model_dump()` of a
`TailoringSuggestion`. -/
structure AgentState where
  job_description : String := ""
  resume : String
  request_type : RequestType := RequestType.tailor_resume
  user_edit_request : String := ""
  edit_section : String := ""
  edit_content : String := ""
  edit_completed : Bool := false
  company_context : Option CompanyContext := none
  requirements : List Requirement := []
  «matches» : List MatchedSkill := []
  gaps : List Gap := []
  prioritized_improvements : List PrioritizedImprovement := []
  tailoring_suggestions : List TailoringSuggestion := []
  current_gap_index : Nat := 0
  current_suggestion : Option TailoringSuggestion := none
  human_feedback : Option FeedbackDict := none
  tailored_resume : String := ""
  ats_score : Rat := 0
  final_notes : List String := []
  output : String := ""
  waiting_for_human : Bool := false
  human_question : String := ""
  step_name : String := ""
deriving DecidableEq

/-- Oracle: one field per structured LLM call site of the agent.  Calls made
once per loop element are functions of the varying argument; single-shot calls
are fixed values (the rest of each prompt is fixed for a given session).
Per-requirement calls in `analyze_resume` return `Except Unit _` so that a
raised provider exception (`except Exception`) can be represented; the
`NO_MATCH` answer of the match call is the `Except.ok none` case.  All other
call sites have no handler: a failure there aborts the whole run (spec
section 7), which is outside the embedded always-terminating fragment. -/
structure Oracle where
  detect : RequestAnalysis
  directEdit : String
  requirements : List Requirement
  company : CompanyContext
  matchO : Requirement → Except Unit (Option MatchedSkill)
  gapO : Requirement → Except Unit Gap
  prioritize : List PrioritizedImprovement
  suggest : Gap → SuggestionDraft
  implement : List (String × List TailoringSuggestion) → String
  ats : ATSAnalysis
  atsFix : String
  review : FinalReview
  reviewFix : String
  report : ReportComponents

/-- The `detect_intent` node. -/
def detect_intent (o : Oracle) (s : AgentState) : AgentState :=
  let request_analysis := o.detect
  let s1 := { s with request_type := request_analysis.request_type }
  if s1.request_type = RequestType.direct_edit then
    match request_analysis.edit_details with
    | some ed => { s1 with edit_section := ed.«section», edit_content := ed.content }
    | none => s1
  else s1

/-- The `determine_next_step` router. -/
def determine_next_step (s : AgentState) : String :=
  if s.request_type = RequestType.direct_edit then "direct_edit" else "tailor_resume"

/-- The `process_direct_edit` node (report text reproduced with the literal
content of the f-string; surrounding indentation of the Python triple-quoted
literal is not significant for any claim and is elided). -/
def process_direct_edit (o : Oracle) (s : AgentState) : AgentState :=
  let s1 := { s with tailored_resume := o.directEdit, edit_completed := true }
  { s1 with output :=
      "\n# Resume Edit Complete\n\nI have updated your resume by making the following change:\n\n**Section**: "
        ++ s1.edit_section ++ "\n**Change**: " ++ s1.user_edit_request
        ++ "\n\n## Updated Resume\n\n" ++ s1.tailored_resume ++ "\n" }

/-- The `extract_requirements` node. -/
def extract_requirements (o : Oracle) (s : AgentState) : AgentState :=
  { s with requirements := o.requirements, company_context := some o.company }

/-- Gap construction in `analyze_resume` (`Gap(skill=req.skill, ...)`). -/
def mkGap (req : Requirement) (gap : Gap) : Gap :=
  { skill := req.skill
    required_level := req.experience_level
    importance := req.importance
    resume_evidence := gap.resume_evidence
    «section» := gap.«section»
    impact := "Missing " ++ req.skill ++ " at " ++ req.experience_level ++ " level" }

/-- The requirement loop of `analyze_resume`: for each requirement, the match
call; on a match append to `matches`, on `NO_MATCH` the gap call and append to
`gaps`; any exception from either call is caught and the requirement skipped
(`except ...: continue`).  Appension order is front-to-back as in the Python
loop. -/
def analyzeReqs (o : Oracle) : List Requirement → List MatchedSkill × List Gap
  | [] => ([], [])
  | req :: reqs =>
    let rest := analyzeReqs o reqs
    match o.matchO req with
    | Except.error _ => rest
    | Except.ok (some response) => (response :: rest.1, rest.2)
    | Except.ok none =>
      match o.gapO req with
      | Except.error _ => rest
      | Except.ok gap => (rest.1, mkGap req gap :: rest.2)

/-- The `analyze_resume` node. -/
def analyze_resume (o : Oracle) (s : AgentState) : AgentState :=
  let mg := analyzeReqs o s.requirements
  { s with «matches» := mg.1, gaps := mg.2, current_gap_index := 0 }

/-- Lookup in the dict comprehension `{p.skill: p.priority for p in ...}` with
`.get(gap.skill, 0)`: a later entry for the same skill overwrites an earlier
one, so the last occurrence wins; a missing skill yields `0`. -/
def priorityGet (ps : List PrioritizedImprovement) (sk : String) : Int :=
  match ps.reverse.find? (fun p => p.skill = sk) with
  | some p => p.priority
  | none => 0

/-- Embedding of Python `sorted(..., key=k, reverse=True)` insertion step:
the inserted element precedes every element with a key `≤` its own, so
earlier-listed elements stay ahead of later equal-key elements (stability). -/
def insertDesc {α : Type} (k : α → Int) (a : α) : List α → List α
  | [] => [a]
  | b :: bs => if k b ≤ k a then a :: b :: bs else b :: insertDesc k a bs

/-- Embedding of Python `sorted(..., key=k, reverse=True)`: a stable sort,
descending in the key. -/
def sortDesc {α : Type} (k : α → Int) : List α → List α
  | [] => []
  | a :: l => insertDesc k a (sortDesc k l)

/-- The `prioritize_improvements` node. -/
def prioritize_improvements (o : Oracle) (s : AgentState) : AgentState :=
  let s1 := { s with prioritized_improvements := o.prioritize }
  if s1.prioritized_improvements ≠ [] then
    { s1 with gaps := sortDesc (fun gap => priorityGet s1.prioritized_improvements gap.skill) s1.gaps }
  else s1

/-- Construction of the pydantic `TailoringSuggestion` from the structured
oracle answer; `approved` takes its declared default `True`. -/
def mkSuggestion (d : SuggestionDraft) : TailoringSuggestion :=
  { skill := d.skill
    «section» := d.«section»
    original_text := d.original_text
    new_text := d.new_text
    explanation := d.explanation
    confidence := d.confidence }

/-- The `generate_suggestion_for_gap` node.  The early return guards
`current_gap_index >= len(gaps)`; the `if not state.tailoring_suggestions`
re-initialisation is the identity on an already-list value. -/
def generate_suggestion_for_gap (o : Oracle) (s : AgentState) : AgentState :=
  if h : s.current_gap_index < s.gaps.length then
    let current_gap := s.gaps.get ⟨s.current_gap_index, h⟩
    let suggestion := mkSuggestion (o.suggest current_gap)
    { s with tailoring_suggestions := s.tailoring_suggestions ++ [suggestion],
             current_suggestion := some suggestion }
  else s

/-- The question f-string built in `request_human_verification`. -/
def mkQuestion (d : TailoringSuggestion) : String :=
  "Should we make this change to the resume?\n\nOriginal: " ++ d.original_text
    ++ "\n\nSuggested: " ++ d.new_text ++ "\n\nRationale: " ++ d.explanation

/-- The `request_human_verification` node.  `suggestion = state.current_suggestion`
aliases the dict held in `current_suggestion`, so `suggestion["approved"] = True`
updates that dict (and only that dict). -/
def request_human_verification (s : AgentState) : AgentState :=
  match s.current_suggestion with
  | none => s
  | some suggestion =>
    if suggestion.confidence = "high" then
      { s with current_suggestion := some { suggestion with approved := true },
               human_feedback := some
                 { current_response := some { answer := "Yes" }, pending_request := none },
               waiting_for_human := false }
    else
      { s with waiting_for_human := true,
               step_name := "request_verification",
               human_question := mkQuestion suggestion,
               human_feedback := some
                 { current_response := none,
                   pending_request := some
                     { question := mkQuestion suggestion,
                       options := ["Yes", "No", "Yes with modifications"],
                       context := { skill := suggestion.skill,
                                    «section» := suggestion.«section»,
                                    confidence := suggestion.confidence } } },
               output := "Waiting for human verification on suggested change for " ++ suggestion.skill }

/-- The `process_human_feedback` node.  As in the source, the answer cases
mutate only the dict aliased from `current_suggestion`, never the entry of
`tailoring_suggestions`; the gap index then advances unconditionally.  The
`current_suggestion = none` inner case cannot arise in an executed session
(a current response only ever exists after a suggestion does); the Python
code would raise there, aborting the run, and we embed it as the identity. -/
def process_human_feedback (s : AgentState) : AgentState :=
  match currentResponse s.human_feedback with
  | none => s
  | some response =>
    match s.current_suggestion with
    | none => s
    | some suggestion =>
      let suggestion' :=
        if response.answer = "Yes" then { suggestion with approved := true }
        else if response.answer = "No" then { suggestion with approved := false }
        else if response.answer = "Yes with modifications" then
          { suggestion with
              new_text := (match response.modified_text with
                           | some m => m
                           | none => suggestion.new_text),
              approved := true }
        else suggestion
      { s with current_suggestion := some suggestion',
               current_gap_index := s.current_gap_index + 1 }

/-- The `should_continue_processing` router. -/
def should_continue_processing (s : AgentState) : String :=
  if s.current_gap_index < s.gaps.length then "continue" else "complete"

/-- Insertion-ordered grouping of one suggestion into `changes_by_section`
(Python dicts preserve insertion order). -/
def addToSection (acc : List (String × List TailoringSuggestion))
    (t : TailoringSuggestion) : List (String × List TailoringSuggestion) :=
  if acc.any (fun p => p.1 = t.«section») then
    acc.map (fun p => if p.1 = t.«section» then (p.1, p.2 ++ [t]) else p)
  else acc ++ [(t.«section», [t])]

/-- The `changes_by_section` dict built in `implement_changes` from the
approved suggestions. -/
def changesBySection (l : List TailoringSuggestion) : List (String × List TailoringSuggestion) :=
  (l.filter (fun t => t.approved)).foldl addToSection []

/-- The `implement_changes` node.  The grouped changes feed the prompt of the
rewrite call; the node stores the returned document. -/
def implement_changes (o : Oracle) (s : AgentState) : AgentState :=
  { s with tailored_resume := o.implement (changesBySection s.tailoring_suggestions) }

/-- The `ats_optimization` node. -/
def ats_optimization (o : Oracle) (s : AgentState) : AgentState :=
  let ats_analysis := o.ats
  let s1 := { s with ats_score := ats_analysis.score }
  if ats_analysis.score < 80 then { s1 with tailored_resume := o.atsFix } else s1

/-- The `final_review` node. -/
def final_review (o : Oracle) (s : AgentState) : AgentState :=
  let fr := o.review
  let s1 := if fr.adjustments ≠ [] then { s with tailored_resume := o.reviewFix } else s
  { s1 with final_notes := fr.strengths }

/-- Markdown block for the skills component in `generate_report`. -/
def skillsMarkdown : ListOr String → String
  | ListOr.items skills => String.join (skills.map (fun sk => "- " ++ sk ++ "\n"))
  | ListOr.text t => t ++ "\n"

/-- Markdown block for one project in `generate_report`
(`project.get('name', 'Project')`, `project.get('description', '')`). -/
def projectMarkdown (p : ReportProject) : String :=
  "- **" ++ (match p.name with | some n => n | none => "Project") ++ "**: "
    ++ (match p.description with | some d => d | none => "") ++ "\n"

/-- Markdown block for one work-experience entry in `generate_report`. -/
def jobMarkdown (job : ReportJob) : String :=
  "### " ++ job.title ++ " | " ++ job.company ++ "\n"
    ++ "*" ++ job.dates ++ "*\n\n"
    ++ (match job.projects with
        | some ps => "**Key Projects:**\n\n" ++ String.join (ps.map projectMarkdown)
        | none => "")
    ++ (match job.accomplishments with
        | some accs => "\n**Accomplishments:**\n\n" ++ String.join (accs.map (fun a => "- " ++ a ++ "\n"))
        | none => "")
    ++ "\n"

/-- Markdown block for the work-experience component in `generate_report`. -/
def workMarkdown : ListOr ReportJob → String
  | ListOr.items jobs => String.join (jobs.map jobMarkdown)
  | ListOr.text t => t ++ "\n"

/-- Markdown block for the education component in `generate_report`. -/
def eduMarkdown : ListOr ReportEdu → String
  | ListOr.items es =>
      String.join (es.map (fun e =>
        "**" ++ e.degree ++ "** - " ++ e.institution ++ ", " ++ e.dates ++ "\n\n"))
  | ListOr.text t => t ++ "\n"

/-- The `generate_report` node: a no-op on the direct-edit path
(`edit_completed` already true), otherwise the deterministic summary plus the
markdown rendering of the resume components returned by the last oracle call.
Indentation inside the Python triple-quoted summary literal is elided; the
counts, the approved-suggestion lines and the notes are rendered as in the
source. -/
def generate_report (o : Oracle) (s : AgentState) : AgentState :=
  if s.edit_completed then s
  else
    let addressed := s.gaps.filter
      (fun g => (s.tailoring_suggestions.map (fun t => t.skill)).contains g.skill)
    let summary :=
      "\n# Resume Tailoring Summary\n\n## Job Fit Analysis\n- Matched Skills: "
        ++ toString s.«matches».length
        ++ "\n- Addressed Gaps: " ++ toString addressed.length
        ++ "\n- ATS Compatibility Score: " ++ toString s.ats_score ++ "/100\n\n## Key Improvements Made\n"
        ++ String.join ((s.tailoring_suggestions.filter (fun t => t.approved)).map
            (fun t => "- " ++ t.«section» ++ ": " ++ t.explanation ++ "\n"))
        ++ "\n## Resume Strengths\n"
        ++ String.join (s.final_notes.map (fun n => "- " ++ n ++ "\n"))
    let rc := o.report
    let final_resume_markdown :=
      "# " ++ rc.name ++ "\n\n" ++ "## " ++ rc.current_title ++ "\n\n"
        ++ rc.professional_summary ++ "\n\n"
        ++ "## Skills\n\n" ++ skillsMarkdown rc.skills
        ++ "\n## Work Experience\n\n" ++ workMarkdown rc.work_experience
        ++ "\n## Education\n\n" ++ eduMarkdown rc.education
    { s with output := summary ++ "\n\n## Final Tailored Resume\n" ++ final_resume_markdown }

/-- Nodes of the workflow graph registered in `_build_workflow`. -/
inductive Node where
  | detect_intent
  | process_direct_edit
  | extract_requirements
  | analyze_resume
  | prioritize_improvements
  | generate_suggestion
  | request_verification
  | human_input
  | process_feedback
  | implement_changes
  | ats_optimization
  | final_review
  | generate_report
deriving DecidableEq

/-- Node bodies, as registered by `workflow.add_node` (the `human_input`
interrupt node is the identity `lambda x: x`). -/
def stepNode (o : Oracle) : Node → AgentState → AgentState
  | Node.detect_intent => detect_intent o
  | Node.process_direct_edit => process_direct_edit o
  | Node.extract_requirements => extract_requirements o
  | Node.analyze_resume => analyze_resume o
  | Node.prioritize_improvements => prioritize_improvements o
  | Node.generate_suggestion => generate_suggestion_for_gap o
  | Node.request_verification => request_human_verification
  | Node.human_input => fun x => x
  | Node.process_feedback => process_human_feedback
  | Node.implement_changes => implement_changes o
  | Node.ats_optimization => ats_optimization o
  | Node.final_review => final_review o
  | Node.generate_report => generate_report o

/-- Edges of `_build_workflow`.  Conditional edges consult the registered
router on the node's output state and dispatch through the registered label
map; `generate_report` has no outgoing edge (terminal);
`request_verification -> human_input` is the interrupt edge (the halt itself
is the executor's `waiting_for_human` check, spec section 4.1). -/
def nextNode : Node → AgentState → Option Node
  | Node.detect_intent, s =>
      some (if determine_next_step s = "direct_edit" then Node.process_direct_edit
            else Node.extract_requirements)
  | Node.process_direct_edit, _ => some Node.generate_report
  | Node.extract_requirements, _ => some Node.analyze_resume
  | Node.analyze_resume, _ => some Node.prioritize_improvements
  | Node.prioritize_improvements, _ => some Node.generate_suggestion
  | Node.generate_suggestion, _ => some Node.request_verification
  | Node.request_verification, _ => some Node.human_input
  | Node.human_input, _ => some Node.process_feedback
  | Node.process_feedback, s =>
      some (if should_continue_processing s = "continue" then Node.generate_suggestion
            else Node.implement_changes)
  | Node.implement_changes, _ => some Node.ats_optimization
  | Node.ats_optimization, _ => some Node.final_review
  | Node.final_review, _ => some Node.generate_report
  | Node.generate_report, _ => none

/-- Outcome of walking the graph: suspended at an interrupt, finished at the
terminal node, or fuel exhausted (used only to keep the walker total; every
theorem below supplies enough fuel). -/
inductive ExecResult where
  | suspended : AgentState → ExecResult
  | finished : AgentState → ExecResult
  | outOfFuel : AgentState → ExecResult
deriving DecidableEq

/-- State carried by an `ExecResult`. -/
def resultState : ExecResult → AgentState
  | ExecResult.suspended s => s
  | ExecResult.finished s => s
  | ExecResult.outOfFuel s => s

/-- Modelled from the spec: the LangGraph compiled-graph walk, which is
library code not present in the repository.  Per spec section 4.1 the
executor runs the current step to completion, halts and returns to the caller
when the state carries `waitingForHuman = true` immediately after a step
returns (the interrupt), stops at a node with no outgoing edge (terminal),
and otherwise follows the (possibly conditional) edge to the next node. -/
def execFrom (o : Oracle) : Nat → Node → AgentState → ExecResult
  | 0, _, s => ExecResult.outOfFuel s
  | fuel + 1, n, s =>
    let s1 := stepNode o n s
    if s1.waiting_for_human then ExecResult.suspended s1
    else
      match nextNode n s1 with
      | none => ExecResult.finished s1
      | some n1 => execFrom o fuel n1 s1

/-- ResumeTailoringAgent.run.  The resume branch is taken when
`initial_state.human_feedback` is truthy AND `initial_state.waiting_for_human`
is still true; it resets the waiting flag and invokes the workflow with
`{"checkpoint": "human_input"}`, which we model from the spec as continuing
the walk at the `human_input` node (the step after the interrupt point).
Otherwise the workflow is invoked from the entry point `detect_intent`. -/
def runAgent (o : Oracle) (fuel : Nat) (initial_state : AgentState) : ExecResult :=
  if initial_state.human_feedback.isSome ∧ initial_state.waiting_for_human then
    execFrom o fuel Node.human_input { initial_state with waiting_for_human := false }
  else
    execFrom o fuel Node.detect_intent initial_state

/-- State mutation performed by `TailoringService.provide_feedback` before it
re-invokes `run`: store the caller-supplied feedback dict and reset the
waiting flag. -/
def provide_feedback (feedback : Option FeedbackDict) (s : AgentState) : AgentState :=
  { s with human_feedback := feedback, waiting_for_human := false }

/-- Initial state built by `TailoringService.start_tailoring`. -/
def initState (resume job_description : String) : AgentState :=
  { resume := resume, job_description := job_description, step_name := "start" }


/-- One non-halting walk step of the executor. -/
theorem execFrom_continue {o : Oracle} {fuel : Nat} {n n1 : Node} {s : AgentState}
    (h1 : (stepNode o n s).waiting_for_human = false)
    (h2 : nextNode n (stepNode o n s) = some n1) :
    execFrom o (fuel + 1) n s = execFrom o fuel n1 (stepNode o n s) := by
  simp [execFrom, h1, h2]

/-- The executor halts when a step raises the waiting flag. -/
theorem execFrom_suspend {o : Oracle} {fuel : Nat} {n : Node} {s : AgentState}
    (h1 : (stepNode o n s).waiting_for_human = true) :
    execFrom o (fuel + 1) n s = ExecResult.suspended (stepNode o n s) := by
  simp [execFrom, h1]

/-- The executor stops at a node with no outgoing edge. -/
theorem execFrom_finish {o : Oracle} {fuel : Nat} {n : Node} {s : AgentState}
    (h1 : (stepNode o n s).waiting_for_human = false)
    (h2 : nextNode n (stepNode o n s) = none) :
    execFrom o (fuel + 1) n s = ExecResult.finished (stepNode o n s) := by
  simp [execFrom, h1, h2]

/-- Frame: `detect_intent` only writes the classification fields. -/
theorem detect_intent_frame (o : Oracle) (s : AgentState) :
    ∃ rt es ec, detect_intent o s =
      { s with request_type := rt, edit_section := es, edit_content := ec } := by
  unfold detect_intent
  dsimp only
  split
  · cases o.detect.edit_details with
    | some ed => exact ⟨_, _, _, rfl⟩
    | none => exact ⟨_, s.edit_section, s.edit_content, rfl⟩
  · exact ⟨_, s.edit_section, s.edit_content, rfl⟩

/-- Frame: `process_direct_edit` only writes the document, the completion
flag and the report text. -/
theorem process_direct_edit_frame (o : Oracle) (s : AgentState) :
    ∃ tr out, process_direct_edit o s =
      { s with tailored_resume := tr, edit_completed := true, output := out } :=
  ⟨_, _, rfl⟩

/-- Frame: `extract_requirements` only writes the requirements and context. -/
theorem extract_requirements_frame (o : Oracle) (s : AgentState) :
    ∃ r c, extract_requirements o s =
      { s with requirements := r, company_context := c } :=
  ⟨_, _, rfl⟩

/-- Frame: `analyze_resume` only writes matches, gaps and resets the cursor. -/
theorem analyze_resume_frame (o : Oracle) (s : AgentState) :
    ∃ m g, analyze_resume o s =
      { s with «matches» := m, gaps := g, current_gap_index := 0 } :=
  ⟨_, _, rfl⟩

/-- Frame: `prioritize_improvements` only writes the priority list and
re-orders the gaps. -/
theorem prioritize_improvements_frame (o : Oracle) (s : AgentState) :
    ∃ p g, prioritize_improvements o s =
      { s with prioritized_improvements := p, gaps := g } := by
  unfold prioritize_improvements
  dsimp only
  split
  · exact ⟨_, _, rfl⟩
  · exact ⟨_, s.gaps, rfl⟩

/-- Frame: `generate_suggestion_for_gap` only appends suggestions (which
carry the construction default `approved = true`) and stores the working
copy. -/
theorem generate_suggestion_frame (o : Oracle) (s : AgentState) :
    ∃ l c, (∀ t ∈ l, t.approved = true) ∧ generate_suggestion_for_gap o s =
      { s with tailoring_suggestions := s.tailoring_suggestions ++ l, current_suggestion := c } := by
  unfold generate_suggestion_for_gap
  dsimp only
  split
  · exact ⟨[_], _, by intro t ht; simp at ht; rw [ht]; rfl, rfl⟩
  · exact ⟨[], s.current_suggestion, by intro t ht; simp at ht, by simp⟩

/-- Frame: `process_human_feedback` only writes the working copy and the
cursor. -/
theorem process_human_feedback_frame (s : AgentState) :
    ∃ c i, process_human_feedback s =
      { s with current_suggestion := c, current_gap_index := i } := by
  unfold process_human_feedback
  dsimp only
  cases currentResponse s.human_feedback with
  | none => exact ⟨s.current_suggestion, s.current_gap_index, by simp⟩
  | some r =>
    cases s.current_suggestion with
    | none => exact ⟨s.current_suggestion, s.current_gap_index, by simp⟩
    | some d => exact ⟨_, _, rfl⟩

/-- Frame: `implement_changes` only writes the document. -/
theorem implement_changes_frame (o : Oracle) (s : AgentState) :
    ∃ tr, implement_changes o s = { s with tailored_resume := tr } :=
  ⟨_, rfl⟩

/-- Frame: `ats_optimization` only writes the score and the document. -/
theorem ats_optimization_frame (o : Oracle) (s : AgentState) :
    ∃ sc tr, ats_optimization o s =
      { s with ats_score := sc, tailored_resume := tr } := by
  unfold ats_optimization
  dsimp only
  split
  · exact ⟨_, _, rfl⟩
  · exact ⟨_, s.tailored_resume, rfl⟩

/-- Frame: `final_review` only writes the document and the notes. -/
theorem final_review_frame (o : Oracle) (s : AgentState) :
    ∃ tr fn, final_review o s =
      { s with tailored_resume := tr, final_notes := fn } := by
  unfold final_review
  dsimp only
  split
  · exact ⟨_, _, rfl⟩
  · exact ⟨s.tailored_resume, _, rfl⟩

/-- Frame: `generate_report` only writes the report text. -/
theorem generate_report_frame (o : Oracle) (s : AgentState) :
    ∃ out, generate_report o s = { s with output := out } := by
  unfold generate_report
  dsimp only
  split
  · exact ⟨s.output, by simp⟩
  · exact ⟨_, rfl⟩

/-- States a session can be in after any step: the fresh initial state, the
result of any node body under any oracle, the caller feedback mutation of
`TailoringService.provide_feedback`, and the flag reset performed by the
resume branch of `run`.  This over-approximates the states that actually
occur (it allows node bodies in any order), so an invariant proved for all
of `Reach` holds in particular after every step of every session. -/
inductive Reach : AgentState → Prop where
  | init (resume job_description : String) : Reach (initState resume job_description)
  | step (o : Oracle) (n : Node) {s : AgentState} : Reach s → Reach (stepNode o n s)
  | feedback (f : Option FeedbackDict) {s : AgentState} : Reach s → Reach (provide_feedback f s)
  | reset {s : AgentState} : Reach s → Reach { s with waiting_for_human := false }

/-- The question rendered by `request_human_verification` is never the empty
string: it starts with a fixed non-empty literal. -/
theorem mkQuestion_ne_empty (d : TailoringSuggestion) : mkQuestion d ≠ "" := by
  intro h
  have hlen := congrArg String.length h
  simp only [mkQuestion, String.length_append] at hlen
  have hpos : 0 < ("Should we make this change to the resume?\n\nOriginal: " : String).length := by
    decide
  have hnil : ("" : String).length = 0 := rfl
  omega

/-- Suspension invariant: whenever the waiting flag is up, a pending question
has been rendered and no current response is stored yet. -/
def SuspendInv (s : AgentState) : Prop :=
  s.waiting_for_human = true → s.human_question ≠ "" ∧ currentResponse s.human_feedback = none

/-- Transport of the suspension invariant along a step that leaves the
waiting flag, the question and the feedback dict untouched. -/
theorem suspendInv_of_fields {s s1 : AgentState}
    (hW : s1.waiting_for_human = s.waiting_for_human)
    (hQ : s1.human_question = s.human_question)
    (hF : s1.human_feedback = s.human_feedback)
    (ih : SuspendInv s) : SuspendInv s1 := by
  intro hw
  rw [hW] at hw
  rw [hQ, hF]
  exact ih hw

/-- Every node body preserves the suspension invariant. -/
theorem suspendInv_step (o : Oracle) (n : Node) (s : AgentState) (ih : SuspendInv s) :
    SuspendInv (stepNode o n s) := by
  cases n
  case detect_intent =>
    obtain ⟨rt, es, ec, h⟩ := detect_intent_frame o s
    rw [stepNode, h]
    exact suspendInv_of_fields rfl rfl rfl ih
  case process_direct_edit =>
    obtain ⟨tr, out, h⟩ := process_direct_edit_frame o s
    rw [stepNode, h]
    exact suspendInv_of_fields rfl rfl rfl ih
  case extract_requirements =>
    obtain ⟨r, c, h⟩ := extract_requirements_frame o s
    rw [stepNode, h]
    exact suspendInv_of_fields rfl rfl rfl ih
  case analyze_resume =>
    obtain ⟨m, g, h⟩ := analyze_resume_frame o s
    rw [stepNode, h]
    exact suspendInv_of_fields rfl rfl rfl ih
  case prioritize_improvements =>
    obtain ⟨p, g, h⟩ := prioritize_improvements_frame o s
    rw [stepNode, h]
    exact suspendInv_of_fields rfl rfl rfl ih
  case generate_suggestion =>
    obtain ⟨l, c, _, h⟩ := generate_suggestion_frame o s
    rw [stepNode, h]
    exact suspendInv_of_fields rfl rfl rfl ih
  case request_verification =>
    rw [stepNode]
    unfold request_human_verification
    cases s.current_suggestion with
    | none => exact ih
    | some d =>
      by_cases hconf : d.confidence = "high"
      · simp only [hconf, if_true]
        intro hw
        simp at hw
      · simp only [hconf, if_false]
        intro _
        exact ⟨mkQuestion_ne_empty d, rfl⟩
  case human_input =>
    exact ih
  case process_feedback =>
    obtain ⟨c, i, h⟩ := process_human_feedback_frame s
    rw [stepNode, h]
    exact suspendInv_of_fields rfl rfl rfl ih
  case implement_changes =>
    obtain ⟨tr, h⟩ := implement_changes_frame o s
    rw [stepNode, h]
    exact suspendInv_of_fields rfl rfl rfl ih
  case ats_optimization =>
    obtain ⟨sc, tr, h⟩ := ats_optimization_frame o s
    rw [stepNode, h]
    exact suspendInv_of_fields rfl rfl rfl ih
  case final_review =>
    obtain ⟨tr, fn, h⟩ := final_review_frame o s
    rw [stepNode, h]
    exact suspendInv_of_fields rfl rfl rfl ih
  case generate_report =>
    obtain ⟨out, h⟩ := generate_report_frame o s
    rw [stepNode, h]
    exact suspendInv_of_fields rfl rfl rfl ih

/-- The suspension invariant holds in every reachable state. -/
theorem suspendInv_reach {s : AgentState} (h : Reach s) : SuspendInv s := by
  induction h with
  | init resume job_description => intro hw; simp [initState] at hw
  | step o n _ ih => exact suspendInv_step o n _ ih
  | feedback f _ _ => intro hw; simp [provide_feedback] at hw
  | reset _ _ => intro hw; simp at hw

/-- Append-only invariant: every entry ever appended to
`tailoring_suggestions` still carries its construction default
`approved = true`.  Feedback processing writes only the detached
`current_suggestion` dict, never the list entry. -/
def ApprovedInv (s : AgentState) : Prop :=
  ∀ t ∈ s.tailoring_suggestions, t.approved = true

/-- Transport of the append-only invariant along a step that leaves the
suggestion list untouched. -/
theorem approvedInv_of_fields {s s1 : AgentState}
    (hT : s1.tailoring_suggestions = s.tailoring_suggestions)
    (ih : ApprovedInv s) : ApprovedInv s1 := by
  intro t ht
  rw [hT] at ht
  exact ih t ht

/-- Every node body preserves the append-only invariant. -/
theorem approvedInv_step (o : Oracle) (n : Node) (s : AgentState) (ih : ApprovedInv s) :
    ApprovedInv (stepNode o n s) := by
  cases n
  case detect_intent =>
    obtain ⟨rt, es, ec, h⟩ := detect_intent_frame o s
    rw [stepNode, h]
    exact approvedInv_of_fields rfl ih
  case process_direct_edit =>
    obtain ⟨tr, out, h⟩ := process_direct_edit_frame o s
    rw [stepNode, h]
    exact approvedInv_of_fields rfl ih
  case extract_requirements =>
    obtain ⟨r, c, h⟩ := extract_requirements_frame o s
    rw [stepNode, h]
    exact approvedInv_of_fields rfl ih
  case analyze_resume =>
    obtain ⟨m, g, h⟩ := analyze_resume_frame o s
    rw [stepNode, h]
    exact approvedInv_of_fields rfl ih
  case prioritize_improvements =>
    obtain ⟨p, g, h⟩ := prioritize_improvements_frame o s
    rw [stepNode, h]
    exact approvedInv_of_fields rfl ih
  case generate_suggestion =>
    obtain ⟨l, c, hl, h⟩ := generate_suggestion_frame o s
    rw [stepNode, h]
    intro t ht
    simp only [List.mem_append] at ht
    cases ht with
    | inl hmem => exact ih t hmem
    | inr hmem => exact hl t hmem
  case request_verification =>
    rw [stepNode]
    unfold request_human_verification
    cases s.current_suggestion with
    | none => exact ih
    | some d =>
      by_cases hconf : d.confidence = "high"
      · simp only [hconf, if_true]
        exact approvedInv_of_fields rfl ih
      · simp only [hconf, if_false]
        exact approvedInv_of_fields rfl ih
  case human_input =>
    exact ih
  case process_feedback =>
    obtain ⟨c, i, h⟩ := process_human_feedback_frame s
    rw [stepNode, h]
    exact approvedInv_of_fields rfl ih
  case implement_changes =>
    obtain ⟨tr, h⟩ := implement_changes_frame o s
    rw [stepNode, h]
    exact approvedInv_of_fields rfl ih
  case ats_optimization =>
    obtain ⟨sc, tr, h⟩ := ats_optimization_frame o s
    rw [stepNode, h]
    exact approvedInv_of_fields rfl ih
  case final_review =>
    obtain ⟨tr, fn, h⟩ := final_review_frame o s
    rw [stepNode, h]
    exact approvedInv_of_fields rfl ih
  case generate_report =>
    obtain ⟨out, h⟩ := generate_report_frame o s
    rw [stepNode, h]
    exact approvedInv_of_fields rfl ih

/-- The append-only invariant holds in every reachable state. -/
theorem approvedInv_reach {s : AgentState} (h : Reach s) : ApprovedInv s := by
  induction h with
  | init resume job_description => intro t ht; simp [initState] at ht
  | step o n _ ih => exact approvedInv_step o n _ ih
  | feedback f _ ih => intro t ht; exact ih t ht
  | reset _ ih => intro t ht; exact ih t ht

/-- Membership in a stable descending insertion. -/
theorem mem_insertDesc {α : Type} (k : α → Int) (a x : α) (l : List α) :
    x ∈ insertDesc k a l ↔ x = a ∨ x ∈ l := by
  induction l with
  | nil => simp [insertDesc]
  | cons b bs ih =>
    unfold insertDesc
    split
    · simp
    · simp only [List.mem_cons, ih]
      tauto

/-- Stable descending insertion permutes the cons. -/
theorem insertDesc_perm {α : Type} (k : α → Int) (a : α) (l : List α) :
    List.Perm (insertDesc k a l) (a :: l) := by
  induction l with
  | nil => simp [insertDesc]
  | cons b bs ih =>
    unfold insertDesc
    split
    · exact List.Perm.refl _
    · exact (List.Perm.cons b ih).trans (List.Perm.swap a b bs)

/-- The stable descending sort permutes its input. -/
theorem sortDesc_perm {α : Type} (k : α → Int) (l : List α) :
    List.Perm (sortDesc k l) l := by
  induction l with
  | nil => exact List.Perm.refl _
  | cons a l ih =>
    exact (insertDesc_perm k a (sortDesc k l)).trans (List.Perm.cons a ih)

/-- Insertion into a descending list keeps it descending. -/
theorem insertDesc_pairwise {α : Type} (k : α → Int) (a : α) {l : List α}
    (h : l.Pairwise (fun x y => k y ≤ k x)) :
    (insertDesc k a l).Pairwise (fun x y => k y ≤ k x) := by
  induction l with
  | nil => simp [insertDesc]
  | cons b bs ih =>
    rw [List.pairwise_cons] at h
    unfold insertDesc
    split
    case isTrue hba =>
      rw [List.pairwise_cons]
      refine ⟨?_, List.pairwise_cons.mpr h⟩
      intro x hx
      rcases List.mem_cons.mp hx with hxb | hxbs
      · rw [hxb]; exact hba
      · exact le_trans (h.1 x hxbs) hba
    case isFalse hba =>
      rw [List.pairwise_cons]
      refine ⟨?_, ih h.2⟩
      intro x hx
      rcases (mem_insertDesc k a x bs).mp hx with hxa | hxbs
      · rw [hxa]; exact le_of_lt (lt_of_not_le hba)
      · exact h.1 x hxbs

/-- The stable descending sort yields a descending list. -/
theorem sortDesc_pairwise {α : Type} (k : α → Int) (l : List α) :
    (sortDesc k l).Pairwise (fun x y => k y ≤ k x) := by
  induction l with
  | nil => simp [sortDesc]
  | cons a l ih => exact insertDesc_pairwise k a ih

/-- Stability of the insertion: within a key class of an already-descending
list, the inserted element lands in front and the others keep their order. -/
theorem insertDesc_filter {α : Type} (k : α → Int) (a : α) (c : Int) {l : List α}
    (h : l.Pairwise (fun x y => k y ≤ k x)) :
    (insertDesc k a l).filter (fun x => k x = c) =
      (if k a = c then [a] else []) ++ l.filter (fun x => k x = c) := by
  induction l with
  | nil =>
    by_cases hc : k a = c <;> simp [insertDesc, hc]
  | cons b bs ih =>
    rw [List.pairwise_cons] at h
    unfold insertDesc
    split
    case isTrue hba =>
      by_cases hc : k a = c <;> simp [List.filter_cons, hc]
    case isFalse hba =>
      have hblt : k a < k b := lt_of_not_le hba
      by_cases hbc : k b = c
      · have hac : ¬ (k a = c) := by omega
        simp [List.filter_cons, hbc, hac, ih h.2]
      · simp [List.filter_cons, hbc, ih h.2]

/-- Stability of the stable descending sort: every key class is preserved as
a subsequence in its original order. -/
theorem sortDesc_filter {α : Type} (k : α → Int) (c : Int) (l : List α) :
    (sortDesc k l).filter (fun x => k x = c) = l.filter (fun x => k x = c) := by
  induction l with
  | nil => simp [sortDesc]
  | cons a l ih =>
    unfold sortDesc
    rw [insertDesc_filter k a c (sortDesc_pairwise k l), ih, List.filter_cons]
    by_cases hc : k a = c <;> simp [hc]

/-- Contribution of one requirement to `matches`: present exactly when the
match call succeeds with a match. -/
def matchOutcome (o : Oracle) (r : Requirement) : Option MatchedSkill :=
  match o.matchO r with
  | Except.ok (some m) => some m
  | _ => none

/-- Contribution of one requirement to `gaps`: present exactly when the match
call succeeds with `NO_MATCH` and the follow-up gap call also succeeds. -/
def gapOutcome (o : Oracle) (r : Requirement) : Option Gap :=
  match o.matchO r with
  | Except.ok none =>
    (match o.gapO r with
     | Except.ok g => some (mkGap r g)
     | Except.error _ => none)
  | _ => none

/-- A requirement whose analysis raises: either the match call fails, or it
answers `NO_MATCH` and the gap call fails.  These are exactly the executions
that reach the `except` handler of the loop. -/
def reqFails (o : Oracle) (r : Requirement) : Prop :=
  o.matchO r = Except.error () ∨
    (o.matchO r = Except.ok none ∧ o.gapO r = Except.error ())

/-- The analysis loop collects exactly the per-requirement outcomes, in
requirement order. -/
theorem analyzeReqs_eq (o : Oracle) (reqs : List Requirement) :
    analyzeReqs o reqs =
      (reqs.filterMap (fun r => matchOutcome o r),
       reqs.filterMap (fun r => gapOutcome o r)) := by
  induction reqs with
  | nil => simp [analyzeReqs]
  | cons req reqs ih =>
    unfold analyzeReqs
    rw [ih]
    cases hm : o.matchO req with
    | error e => simp [List.filterMap_cons, matchOutcome, gapOutcome, hm]
    | ok mo =>
      cases mo with
      | some m => simp [List.filterMap_cons, matchOutcome, gapOutcome, hm]
      | none =>
        cases hg : o.gapO req with
        | error e => simp [List.filterMap_cons, matchOutcome, gapOutcome, hm, hg]
        | ok g => simp [List.filterMap_cons, matchOutcome, gapOutcome, hm, hg]

/-- A failing requirement contributes nothing to either output list. -/
theorem reqFails_outcomes {o : Oracle} {r : Requirement} (h : reqFails o r) :
    matchOutcome o r = none ∧ gapOutcome o r = none := by
  cases h with
  | inl he => simp [matchOutcome, gapOutcome, he]
  | inr he => simp [matchOutcome, gapOutcome, he.1, he.2]

/-- Deleting a failing requirement from anywhere in the batch does not change
the analysis result: the exception is caught and the loop continues with the
remaining requirements. -/
theorem analyzeReqs_skip (o : Oracle) (pre post : List Requirement) (r : Requirement)
    (h : reqFails o r) :
    analyzeReqs o (pre ++ r :: post) = analyzeReqs o (pre ++ post) := by
  obtain ⟨hm, hg⟩ := reqFails_outcomes h
  rw [analyzeReqs_eq, analyzeReqs_eq]
  simp [List.filterMap_append, List.filterMap_cons, hm, hg]

/-- Any list is pairwise related by a total relation. -/
theorem pairwise_of_total {α : Type} {R : α → α → Prop} (h : ∀ a b, R a b) :
    ∀ l : List α, l.Pairwise R := by
  intro l
  induction l with
  | nil => exact List.Pairwise.nil
  | cons a l ih => exact List.Pairwise.cons (fun b _ => h a b) ih

/-- Gap order produced by `prioritize_improvements`: in both branches of the
`if state.prioritized_improvements` guard, the resulting gap list is the
stable descending sort of the previous one by looked-up priority (with the
empty priority list every key is the default `0`, and a stable sort by a
constant key is the identity, which the proof obtains from stability). -/
theorem prioritize_gaps_perm (o : Oracle) (s : AgentState) :
    List.Perm (prioritize_improvements o s).gaps s.gaps := by
  unfold prioritize_improvements
  dsimp only
  split
  · exact sortDesc_perm _ _
  · exact List.Perm.refl _

/-- The gaps leaving `prioritize_improvements` are in descending priority
order. -/
theorem prioritize_gaps_sorted (o : Oracle) (s : AgentState) :
    (prioritize_improvements o s).gaps.Pairwise
      (fun x y => priorityGet o.prioritize y.skill ≤ priorityGet o.prioritize x.skill) := by
  unfold prioritize_improvements
  dsimp only
  split
  case isTrue h => exact sortDesc_pairwise _ _
  case isFalse h =>
    have hempty : o.prioritize = [] := by
      by_contra hne
      exact h hne
    refine pairwise_of_total ?_ s.gaps
    intro a b
    rw [hempty]
    exact le_refl _

/-- The reordering performed by `prioritize_improvements` is stable: gaps of
equal looked-up priority keep their original relative order. -/
theorem prioritize_gaps_stable (o : Oracle) (s : AgentState) (c : Int) :
    (prioritize_improvements o s).gaps.filter
        (fun g => priorityGet o.prioritize g.skill = c) =
      s.gaps.filter (fun g => priorityGet o.prioritize g.skill = c) := by
  unfold prioritize_improvements
  dsimp only
  split
  · exact sortDesc_filter _ c s.gaps
  · rfl

/-- Walk step phrased through an explicit closed form of the stepped state. -/
theorem execFrom_step_eq {o : Oracle} {fuel : Nat} {n n1 : Node} {s s1 : AgentState}
    (hstep : stepNode o n s = s1)
    (h1 : s1.waiting_for_human = false) (h2 : nextNode n s1 = some n1) :
    execFrom o (fuel + 1) n s = execFrom o fuel n1 s1 := by
  subst hstep
  exact execFrom_continue h1 h2

/-- Terminal step phrased through an explicit closed form of the stepped state. -/
theorem execFrom_finish_eq {o : Oracle} {fuel : Nat} {n : Node} {s s1 : AgentState}
    (hstep : stepNode o n s = s1)
    (h1 : s1.waiting_for_human = false) (h2 : nextNode n s1 = none) :
    execFrom o (fuel + 1) n s = ExecResult.finished s1 := by
  subst hstep
  exact execFrom_finish h1 h2

/-- Applying a sequence of node bodies in order (used to name the state in
which a router is first evaluated). -/
def execPath (o : Oracle) (ns : List Node) (s : AgentState) : AgentState :=
  ns.foldl (fun st n => stepNode o n st) s

/-- After the loop exits, the synthesis pipeline (implement, score, review,
report) always runs to the terminal node, leaving the suggestion list and the
lowered waiting flag untouched. -/
theorem exec_synthesis (o : Oracle) (fuel : Nat) (s : AgentState)
    (hW : s.waiting_for_human = false) :
    ∃ f, execFrom o (fuel + 4) Node.implement_changes s = ExecResult.finished f ∧
      f.tailoring_suggestions = s.tailoring_suggestions ∧
      f.waiting_for_human = false := by
  obtain ⟨tr1, h9⟩ := implement_changes_frame o s
  obtain ⟨sc, tr2, h10⟩ := ats_optimization_frame o { s with tailored_resume := tr1 }
  obtain ⟨tr3, fn, h11⟩ := final_review_frame o { s with ats_score := sc, tailored_resume := tr2 }
  obtain ⟨out, h12⟩ := generate_report_frame o
    { s with ats_score := sc, tailored_resume := tr3, final_notes := fn }
  refine ⟨{ s with ats_score := sc, tailored_resume := tr3, final_notes := fn, output := out },
    ?_, rfl, hW⟩
  calc execFrom o (fuel + 4) Node.implement_changes s
      = execFrom o (fuel + 3) Node.ats_optimization { s with tailored_resume := tr1 } :=
        execFrom_step_eq h9 hW rfl
    _ = execFrom o (fuel + 2) Node.final_review { s with ats_score := sc, tailored_resume := tr2 } :=
        execFrom_step_eq h10 hW rfl
    _ = execFrom o (fuel + 1) Node.generate_report
          { s with ats_score := sc, tailored_resume := tr3, final_notes := fn } :=
        execFrom_step_eq h11 hW rfl
    _ = ExecResult.finished
          { s with ats_score := sc, tailored_resume := tr3, final_notes := fn, output := out } :=
        execFrom_finish_eq h12 hW rfl

/-- Claim C6: for every session whose gap list is empty when the iteration
loop is entered, the router's first evaluation (after the no-op pass through
the loop bodies) selects "complete", `implement_changes` runs with an empty
`tailoring_suggestions` list, and the run finishes with no suspension ever
occurring (the walk returns `finished`, never `suspended`). -/
theorem c6_empty_gap_list_run (o : Oracle) (resume job_description : String)
    (hdet : o.detect.request_type = RequestType.tailor_resume)
    (hnogap : ∀ r ∈ o.requirements, gapOutcome o r = none) :
    should_continue_processing
        (execPath o [Node.detect_intent, Node.extract_requirements, Node.analyze_resume,
          Node.prioritize_improvements, Node.generate_suggestion, Node.request_verification,
          Node.human_input, Node.process_feedback] (initState resume job_description))
      = "complete" ∧
    (execPath o [Node.detect_intent, Node.extract_requirements, Node.analyze_resume,
      Node.prioritize_improvements, Node.generate_suggestion, Node.request_verification,
      Node.human_input, Node.process_feedback]
        (initState resume job_description)).tailoring_suggestions = [] ∧
    ∃ f : AgentState,
      execFrom o 20 Node.detect_intent (initState resume job_description) =
          ExecResult.finished f ∧
        f.tailoring_suggestions = [] ∧ f.waiting_for_human = false := by
  have hgapsnil : o.requirements.filterMap (fun r => gapOutcome o r) = [] :=
    List.filterMap_eq_nil_iff.mpr hnogap
  have h1 : stepNode o Node.detect_intent (initState resume job_description) =
      { initState resume job_description with request_type := RequestType.tailor_resume } := by
    show detect_intent o (initState resume job_description) = _
    unfold detect_intent
    simp [hdet]
  have h2 : stepNode o Node.extract_requirements
      { initState resume job_description with request_type := RequestType.tailor_resume } =
      { initState resume job_description with
          request_type := RequestType.tailor_resume,
          requirements := o.requirements, company_context := some o.company } := rfl
  have h3 : stepNode o Node.analyze_resume
      { initState resume job_description with
          request_type := RequestType.tailor_resume,
          requirements := o.requirements, company_context := some o.company } =
      { initState resume job_description with
          request_type := RequestType.tailor_resume,
          requirements := o.requirements, company_context := some o.company,
          «matches» := o.requirements.filterMap (fun r => matchOutcome o r),
          gaps := [], current_gap_index := 0 } := by
    show analyze_resume o _ = _
    unfold analyze_resume
    rw [analyzeReqs_eq]
    dsimp only
    rw [hgapsnil]
  have h4 : stepNode o Node.prioritize_improvements
      { initState resume job_description with
          request_type := RequestType.tailor_resume,
          requirements := o.requirements, company_context := some o.company,
          «matches» := o.requirements.filterMap (fun r => matchOutcome o r),
          gaps := [], current_gap_index := 0 } =
      { initState resume job_description with
          request_type := RequestType.tailor_resume,
          requirements := o.requirements, company_context := some o.company,
          «matches» := o.requirements.filterMap (fun r => matchOutcome o r),
          gaps := [], current_gap_index := 0,
          prioritized_improvements := o.prioritize } := by
    show prioritize_improvements o _ = _
    unfold prioritize_improvements
    dsimp only
    split <;> rfl
  have h5 : stepNode o Node.generate_suggestion
      { initState resume job_description with
          request_type := RequestType.tailor_resume,
          requirements := o.requirements, company_context := some o.company,
          «matches» := o.requirements.filterMap (fun r => matchOutcome o r),
          gaps := [], current_gap_index := 0,
          prioritized_improvements := o.prioritize } =
      { initState resume job_description with
          request_type := RequestType.tailor_resume,
          requirements := o.requirements, company_context := some o.company,
          «matches» := o.requirements.filterMap (fun r => matchOutcome o r),
          gaps := [], current_gap_index := 0,
          prioritized_improvements := o.prioritize } := rfl
  have h6 : stepNode o Node.request_verification
      { initState resume job_description with
          request_type := RequestType.tailor_resume,
          requirements := o.requirements, company_context := some o.company,
          «matches» := o.requirements.filterMap (fun r => matchOutcome o r),
          gaps := [], current_gap_index := 0,
          prioritized_improvements := o.prioritize } =
      { initState resume job_description with
          request_type := RequestType.tailor_resume,
          requirements := o.requirements, company_context := some o.company,
          «matches» := o.requirements.filterMap (fun r => matchOutcome o r),
          gaps := [], current_gap_index := 0,
          prioritized_improvements := o.prioritize } := rfl
  have h7 : stepNode o Node.human_input
      { initState resume job_description with
          request_type := RequestType.tailor_resume,
          requirements := o.requirements, company_context := some o.company,
          «matches» := o.requirements.filterMap (fun r => matchOutcome o r),
          gaps := [], current_gap_index := 0,
          prioritized_improvements := o.prioritize } =
      { initState resume job_description with
          request_type := RequestType.tailor_resume,
          requirements := o.requirements, company_context := some o.company,
          «matches» := o.requirements.filterMap (fun r => matchOutcome o r),
          gaps := [], current_gap_index := 0,
          prioritized_improvements := o.prioritize } := rfl
  have h8 : stepNode o Node.process_feedback
      { initState resume job_description with
          request_type := RequestType.tailor_resume,
          requirements := o.requirements, company_context := some o.company,
          «matches» := o.requirements.filterMap (fun r => matchOutcome o r),
          gaps := [], current_gap_index := 0,
          prioritized_improvements := o.prioritize } =
      { initState resume job_description with
          request_type := RequestType.tailor_resume,
          requirements := o.requirements, company_context := some o.company,
          «matches» := o.requirements.filterMap (fun r => matchOutcome o r),
          gaps := [], current_gap_index := 0,
          prioritized_improvements := o.prioritize } := rfl
  have hpath : execPath o [Node.detect_intent, Node.extract_requirements, Node.analyze_resume,
      Node.prioritize_improvements, Node.generate_suggestion, Node.request_verification,
      Node.human_input, Node.process_feedback] (initState resume job_description) =
      { initState resume job_description with
          request_type := RequestType.tailor_resume,
          requirements := o.requirements, company_context := some o.company,
          «matches» := o.requirements.filterMap (fun r => matchOutcome o r),
          gaps := [], current_gap_index := 0,
          prioritized_improvements := o.prioritize } := by
    unfold execPath
    simp only [List.foldl]
    rw [h1, h2, h3, h4, h5, h6, h7, h8]
  refine ⟨?_, ?_, ?_⟩
  · simp only [hpath]
    rfl
  · simp only [hpath]
    rfl
  obtain ⟨f, hf, hfT, hfW⟩ := exec_synthesis o 8
    { initState resume job_description with
        request_type := RequestType.tailor_resume,
        requirements := o.requirements, company_context := some o.company,
        «matches» := o.requirements.filterMap (fun r => matchOutcome o r),
        gaps := [], current_gap_index := 0,
        prioritized_improvements := o.prioritize } rfl
  refine ⟨f, ?_, by rw [hfT]; rfl, hfW⟩
  calc execFrom o 20 Node.detect_intent (initState resume job_description)
      = execFrom o 19 Node.extract_requirements
          { initState resume job_description with request_type := RequestType.tailor_resume } :=
        execFrom_step_eq h1 rfl rfl
    _ = execFrom o 18 Node.analyze_resume
          { initState resume job_description with
              request_type := RequestType.tailor_resume,
              requirements := o.requirements, company_context := some o.company } :=
        execFrom_step_eq h2 rfl rfl
    _ = execFrom o 17 Node.prioritize_improvements
          { initState resume job_description with
              request_type := RequestType.tailor_resume,
              requirements := o.requirements, company_context := some o.company,
              «matches» := o.requirements.filterMap (fun r => matchOutcome o r),
              gaps := [], current_gap_index := 0 } :=
        execFrom_step_eq h3 rfl rfl
    _ = execFrom o 16 Node.generate_suggestion
          { initState resume job_description with
              request_type := RequestType.tailor_resume,
              requirements := o.requirements, company_context := some o.company,
              «matches» := o.requirements.filterMap (fun r => matchOutcome o r),
              gaps := [], current_gap_index := 0,
              prioritized_improvements := o.prioritize } :=
        execFrom_step_eq h4 rfl rfl
    _ = execFrom o 15 Node.request_verification
          { initState resume job_description with
              request_type := RequestType.tailor_resume,
              requirements := o.requirements, company_context := some o.company,
              «matches» := o.requirements.filterMap (fun r => matchOutcome o r),
              gaps := [], current_gap_index := 0,
              prioritized_improvements := o.prioritize } :=
        execFrom_step_eq h5 rfl rfl
    _ = execFrom o 14 Node.human_input
          { initState resume job_description with
              request_type := RequestType.tailor_resume,
              requirements := o.requirements, company_context := some o.company,
              «matches» := o.requirements.filterMap (fun r => matchOutcome o r),
              gaps := [], current_gap_index := 0,
              prioritized_improvements := o.prioritize } :=
        execFrom_step_eq h6 rfl rfl
    _ = execFrom o 13 Node.process_feedback
          { initState resume job_description with
              request_type := RequestType.tailor_resume,
              requirements := o.requirements, company_context := some o.company,
              «matches» := o.requirements.filterMap (fun r => matchOutcome o r),
              gaps := [], current_gap_index := 0,
              prioritized_improvements := o.prioritize } :=
        execFrom_step_eq h7 rfl rfl
    _ = execFrom o 12 Node.implement_changes
          { initState resume job_description with
              request_type := RequestType.tailor_resume,
              requirements := o.requirements, company_context := some o.company,
              «matches» := o.requirements.filterMap (fun r => matchOutcome o r),
              gaps := [], current_gap_index := 0,
              prioritized_improvements := o.prioritize } :=
        execFrom_step_eq h8 rfl rfl
    _ = ExecResult.finished f := hf

/-- Concrete one-requirement session data: every probe below uses short fixed
oracle answers. -/
def reqA : Requirement := { skill := "sql", importance := "High", experience_level := "mid" }

/-- Gap characterization the gap oracle returns for `reqA`. -/
def gapRawA : Gap :=
  { skill := "", required_level := "", importance := "", resume_evidence := "ev",
    «section» := "Missing", impact := "" }

/-- Company context the extraction oracle returns. -/
def companyA : CompanyContext :=
  { culture := "c", industry := "i", terminology := [], formality := "low",
    company_size := "Small", tech_stack := [] }

/-- Compatibility analysis above the corrective threshold. -/
def atsA : ATSAnalysis :=
  { score := 90, keyword_density := [], job_title_matches := [], format_issues := [],
    improvements := [] }

/-- Final review with no requested adjustments. -/
def reviewA : FinalReview := { adjustments := [], strengths := ["s1"], confidence := "high" }

/-- Report components for the final rendering call. -/
def reportA : ReportComponents :=
  { name := "N", current_title := "T", professional_summary := "P",
    skills := ListOr.items ["sql"], work_experience := ListOr.text "W",
    education := ListOr.text "E" }

/-- Medium-confidence suggestion draft: triggers a suspension. -/
def draftMed : SuggestionDraft :=
  { skill := "sql", «section» := "Skills", original_text := "o", new_text := "n",
    explanation := "e", confidence := "medium" }

/-- High-confidence suggestion draft: auto-approved, no suspension. -/
def draftHigh : SuggestionDraft := { draftMed with confidence := "high" }

/-- Oracle for a one-gap session whose suggestion has medium confidence. -/
def oracleMed : Oracle :=
  { detect := { request_type := RequestType.tailor_resume, edit_details := none }
    directEdit := "d"
    requirements := [reqA]
    company := companyA
    matchO := fun _ => Except.ok none
    gapO := fun _ => Except.ok gapRawA
    prioritize := []
    suggest := fun _ => draftMed
    implement := fun _ => "R"
    ats := atsA
    atsFix := "RA"
    review := reviewA
    reviewFix := "RF"
    report := reportA }

/-- Oracle identical to `oracleMed` except the suggestion confidence is high. -/
def oracleHigh : Oracle := { oracleMed with suggest := fun _ => draftHigh }

/-- The suspended state of the medium-confidence session: the first run from
a fresh state halts at the interrupt with one pending suggestion. -/
def suspendedMed : AgentState :=
  resultState (execFrom oracleMed 20 Node.detect_intent (initState "r" "j"))

/-- Feedback payload: answer No. -/
def answerNo : FeedbackDict := { current_response := some { answer := "No" } }

/-- Feedback payload: answer Yes with modifications, modified text M. -/
def answerMod : FeedbackDict :=
  { current_response := some { answer := "Yes with modifications", modified_text := some "M" } }

/-- Feedback payload: answer Yes. -/
def answerYes : FeedbackDict := { current_response := some { answer := "Yes" } }

/-- The suspended session after the caller stored the No answer. -/
def resumedNo : AgentState := provide_feedback (some answerNo) suspendedMed

/-- The suspended session after the caller stored the modified-text answer. -/
def resumedMod : AgentState := provide_feedback (some answerMod) suspendedMed

/-- The suspended session after the caller stored the Yes answer. -/
def resumedYes : AgentState := provide_feedback (some answerYes) suspendedMed

/-- The terminal state of the high-confidence session: one gap, auto-approved
suggestion, run completes without any suspension. -/
def finishedHigh : AgentState :=
  resultState (execFrom oracleHigh 20 Node.detect_intent (initState "r" "j"))

/-- The suspended medium-confidence state is reachable: it is the image of
the fresh initial state under the six pipeline node bodies executed by the
first run. -/
theorem reach_suspendedMed : Reach suspendedMed := by
  have h : suspendedMed =
      stepNode oracleMed Node.request_verification
        (stepNode oracleMed Node.generate_suggestion
          (stepNode oracleMed Node.prioritize_improvements
            (stepNode oracleMed Node.analyze_resume
              (stepNode oracleMed Node.extract_requirements
                (stepNode oracleMed Node.detect_intent (initState "r" "j")))))) := by
    decide
  rw [h]
  exact Reach.step _ _ (Reach.step _ _ (Reach.step _ _ (Reach.step _ _
    (Reach.step _ _ (Reach.step _ _ (Reach.init "r" "j"))))))

/-- Claim C1, evaluation at the failing input: a session suspended on its
single (medium-confidence) gap is resumed with answer No, and separately with
answer Yes-with-modifications (modified text "M").  Processing the feedback
flips `approved` (respectively rewrites `new_text`) only on the detached
`current_suggestion` dict; the appended entry of `tailoring_suggestions`
keeps `approved = true` and `new_text = "n"`, contradicting the claim.  The
last conjunct evaluates the actual `run()` resume on the stored state: every
list entry still ends up approved. -/
theorem c1_feedback_never_reaches_suggestion_list :
    (process_human_feedback resumedNo).tailoring_suggestions.map (fun t => t.approved) = [true] ∧
    (process_human_feedback resumedNo).current_suggestion =
      some { mkSuggestion draftMed with approved := false } ∧
    (process_human_feedback resumedMod).tailoring_suggestions.map (fun t => t.new_text) = ["n"] ∧
    (process_human_feedback resumedMod).current_suggestion =
      some { mkSuggestion draftMed with new_text := "M", approved := true } ∧
    (resultState (runAgent oracleMed 20 resumedNo)).tailoring_suggestions.map
      (fun t => t.approved) = [true, true] := by
  decide

/-- Claim C2, evaluation at the failing input: after the caller layer stores
the answer and resets `waiting_for_human` to false (as
`TailoringService.provide_feedback` does), `run()` fails its own resume test
(`human_feedback and waiting_for_human`) and invokes the workflow from the
entry node `detect_intent` — re-executing the whole pipeline — instead of
continuing after the interrupt point; the walk from the checkpoint node would
have produced a different result. -/
theorem c2_resume_restarts_from_entry :
    resumedYes.human_feedback.isSome = true ∧
    resumedYes.waiting_for_human = false ∧
    runAgent oracleMed 20 resumedYes = execFrom oracleMed 20 Node.detect_intent resumedYes ∧
    runAgent oracleMed 20 resumedYes ≠
      execFrom oracleMed 20 Node.human_input resumedYes := by
  decide

/-- Claim C3, counterexample: in the reachable suspended state the waiting
flag is up but `human_feedback` is set (it carries the pending request with a
`None` current response), so the biconditional "waiting iff question set and
feedback unset" fails as stated. -/
theorem c3_suspended_state_has_feedback_set :
    Reach suspendedMed ∧
    ¬ (suspendedMed.waiting_for_human = true ↔
        (suspendedMed.human_question ≠ "" ∧ suspendedMed.human_feedback = none)) :=
  ⟨reach_suspendedMed, by decide⟩

/-- Claim C3 as amended: in every reachable state, if `waiting_for_human` is
true then the pending question is non-empty and the `current_response` slot
of `human_feedback` is unset (the feedback dict itself is set while
suspended: it stores the pending request). -/
theorem c3_amended_waiting_implies_question_and_no_response {s : AgentState}
    (h : Reach s) (hw : s.waiting_for_human = true) :
    s.human_question ≠ "" ∧ currentResponse s.human_feedback = none :=
  suspendInv_reach h hw

/-- Witness for the amended claim C3 at the concrete suspended session. -/
theorem c3_amended_waiting_implies_question_and_no_response_witness :
    Reach suspendedMed ∧ suspendedMed.waiting_for_human = true ∧
    suspendedMed.human_question ≠ "" ∧ currentResponse suspendedMed.human_feedback = none :=
  ⟨reach_suspendedMed, by decide,
    c3_amended_waiting_implies_question_and_no_response reach_suspendedMed (by decide)⟩

/-- Claim C4: a state whose current suggestion has high confidence is
auto-approved by `request_human_verification`: the working copy gets
`approved = true`, `human_feedback` is set synthetically to the Yes answer,
the waiting flag stays down, and the executor walks straight on to the
`human_input` node instead of suspending. -/
theorem c4_high_confidence_never_suspends (o : Oracle) (fuel : Nat) (s : AgentState)
    (d : TailoringSuggestion) (hc : s.current_suggestion = some d)
    (hh : d.confidence = "high") :
    (request_human_verification s).waiting_for_human = false ∧
    (request_human_verification s).current_suggestion = some { d with approved := true } ∧
    (request_human_verification s).human_feedback =
      some { current_response := some { answer := "Yes" }, pending_request := none } ∧
    execFrom o (fuel + 1) Node.request_verification s =
      execFrom o fuel Node.human_input (request_human_verification s) := by
  have hmain : request_human_verification s =
      { s with current_suggestion := some { d with approved := true },
               human_feedback :=
                 some { current_response := some { answer := "Yes" }, pending_request := none },
               waiting_for_human := false } := by
    unfold request_human_verification
    rw [hc]
    simp [hh]
  refine ⟨by rw [hmain], by rw [hmain], by rw [hmain], ?_⟩
  exact execFrom_continue
    (by show (request_human_verification s).waiting_for_human = false; rw [hmain]) rfl

/-- Witness for claim C4 at a concrete high-confidence state. -/
theorem c4_high_confidence_never_suspends_witness :
    ({ resume := "r", current_suggestion := some (mkSuggestion draftHigh) } : AgentState).current_suggestion
        = some (mkSuggestion draftHigh) ∧
    (mkSuggestion draftHigh).confidence = "high" ∧
    (request_human_verification
        { resume := "r", current_suggestion := some (mkSuggestion draftHigh) }).waiting_for_human = false ∧
    (request_human_verification
        { resume := "r", current_suggestion := some (mkSuggestion draftHigh) }).current_suggestion =
      some { mkSuggestion draftHigh with approved := true } ∧
    (request_human_verification
        { resume := "r", current_suggestion := some (mkSuggestion draftHigh) }).human_feedback =
      some { current_response := some { answer := "Yes" }, pending_request := none } ∧
    execFrom oracleHigh (0 + 1) Node.request_verification
        { resume := "r", current_suggestion := some (mkSuggestion draftHigh) } =
      execFrom oracleHigh 0 Node.human_input
        (request_human_verification
          { resume := "r", current_suggestion := some (mkSuggestion draftHigh) }) :=
  ⟨rfl, rfl,
    c4_high_confidence_never_suspends oracleHigh 0
      { resume := "r", current_suggestion := some (mkSuggestion draftHigh) }
      (mkSuggestion draftHigh) rfl rfl⟩

/-- Claim C5, evaluation at the failing input: a one-gap medium-confidence
session suspends, the caller stores the Yes answer and re-invokes `run()`.
Because `run()` restarts from the entry node, `generate_suggestion_for_gap`
appends a second suggestion for the same single gap: the resulting state has
`len(tailoring_suggestions) = 2 > 1 = len(gaps)`, contradicting the claimed
bound (the index bound and the per-step facts hold, but the count invariant
is broken across the resume). -/
theorem c5_suggestion_count_exceeds_gap_count_after_resume :
    (resultState (runAgent oracleMed 20 resumedYes)).gaps.length = 1 ∧
    (resultState (runAgent oracleMed 20 resumedYes)).tailoring_suggestions.length = 2 := by
  decide

/-- Matched-skill answer used by the gap-free session. -/
def matchedA : MatchedSkill :=
  { skill := "sql", evidence := "ev", «section» := "Skills", confidence := "high",
    relevance := "rel" }

/-- Oracle whose analysis matches every requirement, so no gap is recorded. -/
def oracleNoGaps : Oracle := { oracleMed with matchO := fun _ => Except.ok (some matchedA) }

/-- Witness for claim C6 at a concrete gap-free session. -/
theorem c6_empty_gap_list_run_witness :
    oracleNoGaps.detect.request_type = RequestType.tailor_resume ∧
    (∀ r ∈ oracleNoGaps.requirements, gapOutcome oracleNoGaps r = none) ∧
    (should_continue_processing
        (execPath oracleNoGaps [Node.detect_intent, Node.extract_requirements, Node.analyze_resume,
          Node.prioritize_improvements, Node.generate_suggestion, Node.request_verification,
          Node.human_input, Node.process_feedback] (initState "r" "j"))
      = "complete" ∧
    (execPath oracleNoGaps [Node.detect_intent, Node.extract_requirements, Node.analyze_resume,
      Node.prioritize_improvements, Node.generate_suggestion, Node.request_verification,
      Node.human_input, Node.process_feedback] (initState "r" "j")).tailoring_suggestions = [] ∧
    ∃ f : AgentState,
      execFrom oracleNoGaps 20 Node.detect_intent (initState "r" "j") =
          ExecResult.finished f ∧
        f.tailoring_suggestions = [] ∧ f.waiting_for_human = false) :=
  ⟨rfl, by decide, c6_empty_gap_list_run oracleNoGaps "r" "j" rfl (by decide)⟩

/-- Claim C7, counterexample: the high-confidence session runs to a terminal
state (`finished`, waiting flag down).  Re-invoking `run()` on that state is
not a no-op: the workflow restarts from the entry node, appends a duplicate
suggestion for the re-analyzed gap, and returns a different state. -/
theorem c7_run_on_terminal_state_not_noop :
    finishedHigh.waiting_for_human = false ∧
    execFrom oracleHigh 20 Node.detect_intent (initState "r" "j") =
      ExecResult.finished finishedHigh ∧
    resultState (runAgent oracleHigh 20 finishedHigh) ≠ finishedHigh ∧
    (resultState (runAgent oracleHigh 20 finishedHigh)).tailoring_suggestions.length = 2 ∧
    finishedHigh.tailoring_suggestions.length = 1 := by
  decide

/-- Claim C7 as amended: calling `run()` on any state whose waiting flag is
down (in particular any terminal, completed state) takes the fresh-start
branch and re-executes the workflow from the entry node `detect_intent`; it
is not a no-op in general. -/
theorem c7_amended_run_restarts_on_terminal (o : Oracle) (fuel : Nat) (s : AgentState)
    (h : s.waiting_for_human = false) :
    runAgent o fuel s = execFrom o fuel Node.detect_intent s := by
  unfold runAgent
  simp [h]

/-- Witness for the amended claim C7 at the concrete terminal state. -/
theorem c7_amended_run_restarts_on_terminal_witness :
    finishedHigh.waiting_for_human = false ∧
    runAgent oracleHigh 20 finishedHigh =
      execFrom oracleHigh 20 Node.detect_intent finishedHigh :=
  ⟨by decide, c7_amended_run_restarts_on_terminal oracleHigh 20 finishedHigh (by decide)⟩

/-- Claim C8: `prioritize_improvements` leaves the gap list a permutation of
its previous value, descending in the looked-up priority of each gap's skill
(default 0 for skills without a score), stable (each priority class keeps its
original relative order), and its outgoing edge enters the iteration loop at
`generate_suggestion`. -/
theorem c8_prioritize_sorts_gaps_stably (o : Oracle) (s : AgentState) :
    List.Perm (prioritize_improvements o s).gaps s.gaps ∧
    (prioritize_improvements o s).gaps.Pairwise
      (fun x y => priorityGet o.prioritize y.skill ≤ priorityGet o.prioritize x.skill) ∧
    (∀ c : Int, (prioritize_improvements o s).gaps.filter
        (fun g => priorityGet o.prioritize g.skill = c) =
      s.gaps.filter (fun g => priorityGet o.prioritize g.skill = c)) ∧
    nextNode Node.prioritize_improvements (prioritize_improvements o s) =
      some Node.generate_suggestion :=
  ⟨prioritize_gaps_perm o s, prioritize_gaps_sorted o s,
    fun c => prioritize_gaps_stable o s c, rfl⟩

/-- Claim C9: `analyze_resume` resets the gap cursor to 0 and fills `matches`
and `gaps` with exactly the per-requirement outcomes of the non-failing
requirements; deleting any failing requirement (one whose oracle call raises)
from the batch does not change the result — the exception is caught, the
requirement skipped, and the loop continues. -/
theorem c9_analyze_skips_failing_requirements (o : Oracle) (s : AgentState) :
    (analyze_resume o s).current_gap_index = 0 ∧
    (analyze_resume o s).«matches» = s.requirements.filterMap (fun r => matchOutcome o r) ∧
    (analyze_resume o s).gaps = s.requirements.filterMap (fun r => gapOutcome o r) ∧
    (∀ pre post r, reqFails o r →
        analyzeReqs o (pre ++ r :: post) = analyzeReqs o (pre ++ post)) := by
  refine ⟨rfl, ?_, ?_, fun pre post r h => analyzeReqs_skip o pre post r h⟩
  · show (analyzeReqs o s.requirements).1 = _
    rw [analyzeReqs_eq]
  · show (analyzeReqs o s.requirements).2 = _
    rw [analyzeReqs_eq]

/-- Requirement whose match call raises in the `oracleFail` session. -/
def reqB : Requirement := { skill := "py", importance := "Low", experience_level := "jr" }

/-- Oracle raising on the second requirement and matching nothing else. -/
def oracleFail : Oracle :=
  { oracleMed with
      requirements := [reqA, reqB]
      matchO := fun r => if r.skill = "py" then Except.error () else Except.ok none }

/-- Witness for claim C9: the failing requirement `reqB` is skipped. -/
theorem c9_analyze_skips_failing_requirements_witness :
    reqFails oracleFail reqB ∧
    analyzeReqs oracleFail ([reqA] ++ reqB :: []) = analyzeReqs oracleFail ([reqA] ++ []) :=
  ⟨Or.inl rfl,
    (c9_analyze_skips_failing_requirements oracleFail (initState "r" "j")).2.2.2
      [reqA] [] reqB (Or.inl rfl)⟩

/-- Claim C10: the suggestion list is append-only.  The verification and
feedback steps leave `tailoring_suggestions` untouched (they write only the
detached working copy); the generation step appends exactly one entry and
stores a detached copy of it in `current_suggestion`; in every reachable
state each list entry still carries its construction default
`approved = true`, so the approval filter used by `implement_changes` and
`generate_report` keeps the whole list regardless of the human's answer. -/
theorem c10_suggestions_append_only (o : Oracle) (s : AgentState) (h : Reach s) :
    (request_human_verification s).tailoring_suggestions = s.tailoring_suggestions ∧
    (process_human_feedback s).tailoring_suggestions = s.tailoring_suggestions ∧
    (∀ hlt : s.current_gap_index < s.gaps.length,
        (generate_suggestion_for_gap o s).tailoring_suggestions =
          s.tailoring_suggestions ++
            [mkSuggestion (o.suggest (s.gaps.get ⟨s.current_gap_index, hlt⟩))] ∧
        (generate_suggestion_for_gap o s).current_suggestion =
          some (mkSuggestion (o.suggest (s.gaps.get ⟨s.current_gap_index, hlt⟩)))) ∧
    (∀ t ∈ s.tailoring_suggestions, t.approved = true) ∧
    s.tailoring_suggestions.filter (fun t => t.approved) = s.tailoring_suggestions := by
  refine ⟨?_, ?_, ?_, approvedInv_reach h, ?_⟩
  · unfold request_human_verification
    cases s.current_suggestion with
    | none => rfl
    | some d => by_cases hconf : d.confidence = "high" <;> simp [hconf]
  · obtain ⟨c, i, hpf⟩ := process_human_feedback_frame s
    rw [hpf]
  · intro hlt
    unfold generate_suggestion_for_gap
    rw [dif_pos hlt]
    exact ⟨rfl, rfl⟩
  · exact List.filter_eq_self.mpr (fun t ht => by
      rw [approvedInv_reach h t ht])

/-- Witness for claim C10 at the concrete suspended session. -/
theorem c10_suggestions_append_only_witness :
    Reach suspendedMed ∧
    (request_human_verification suspendedMed).tailoring_suggestions =
      suspendedMed.tailoring_suggestions ∧
    (process_human_feedback suspendedMed).tailoring_suggestions =
      suspendedMed.tailoring_suggestions ∧
    (∀ t ∈ suspendedMed.tailoring_suggestions, t.approved = true) ∧
    suspendedMed.tailoring_suggestions.filter (fun t => t.approved) =
      suspendedMed.tailoring_suggestions :=
  ⟨reach_suspendedMed,
    (c10_suggestions_append_only oracleMed suspendedMed reach_suspendedMed).1,
    (c10_suggestions_append_only oracleMed suspendedMed reach_suspendedMed).2.1,
    (c10_suggestions_append_only oracleMed suspendedMed reach_suspendedMed).2.2.2.1,
    (c10_suggestions_append_only oracleMed suspendedMed reach_suspendedMed).2.2.2.2⟩
